/-
Verification of the birdy-seed-quest grid engine and session controller.

The grid engine (GameBoard component) is embedded as pure functions over an
explicit `EngineState`; the two calls to the ambient random number generator
are embedded as explicit input streams:
  * cell placement consumes a stream `draws : List Position` of sampled cells,
    each the value of `randomCell`, i.e. of
    `{ x: Math.floor(Math.random()*BOARD_SIZE), y: Math.floor(Math.random()*BOARD_SIZE) }`
    (hence always within board bounds, see `randomCell_inBounds`);
  * seed-kind selection consumes one rational `rand` per spawned seed, the
    value of the `Math.random()` call inside `getNewSeedType`.
The board dimension `BOARD_SIZE` (imported from constants.ts) is kept as a
parameter `N` throughout.  React state updates become explicit state passing;
the callbacks `onScore` / `onCoinCollect` / `onGameOver` become an emitted
list of signals.  Since the source's placement loop `getRandomPosition` is
unbounded, its embedding returns `none` when the supplied draw stream is
exhausted without finding a free cell, which models non-termination of the
loop within that many iterations.
-/
import Mathlib

namespace Birdy

/-! ## Data model (types.ts) -/

/-- Enum `GameState` from types.ts. -/
inductive GameState where
  | Ready
  | Playing
  | GameOver
  | ModeSelection
deriving DecidableEq, Repr

/-- Type `Difficulty` from types.ts. -/
inductive Difficulty where
  | easy
  | normal
  | hard
deriving DecidableEq, Repr

/-- Interface `Position` from types.ts: an integer pair. -/
structure Position where
  x : Int
  y : Int
deriving DecidableEq, Repr

/-- Enum `SeedType` from types.ts. -/
inductive SeedType where
  | Good
  | Hard
  | Coin
deriving DecidableEq, Repr

/-- Interface `Seed` from types.ts. -/
structure Seed where
  id : Nat
  position : Position
  type : SeedType
deriving DecidableEq, Repr

/-- The record type of one entry of `difficultySettings` in GameBoard. -/
structure DifficultySetting where
  initialSeeds : Nat
  hardSeedChance : ℚ
  coinChance : ℚ

/-- The `difficultySettings` table in GameBoard. -/
def difficultySettings : Difficulty → DifficultySetting
  | .easy   => { initialSeeds := 30, hardSeedChance := 1/10,   coinChance := 15/100 }
  | .normal => { initialSeeds := 40, hardSeedChance := 2/10,   coinChance := 1/10   }
  | .hard   => { initialSeeds := 50, hardSeedChance := 35/100, coinChance := 5/100  }

/-! ## Random sampling primitives (GameBoard) -/

/-- Predicate: position `p` lies on the `N` by `N` board, i.e. both
coordinates are in `[0, N-1]`. -/
def inBounds (N : Int) (p : Position) : Prop :=
  0 ≤ p.x ∧ p.x < N ∧ 0 ≤ p.y ∧ p.y < N

instance (N : Int) (p : Position) : Decidable (inBounds N p) :=
  inferInstanceAs (Decidable (0 ≤ p.x ∧ p.x < N ∧ 0 ≤ p.y ∧ p.y < N))

/-- One sampled cell, the value of
`{ x: Math.floor(Math.random()*BOARD_SIZE), y: Math.floor(Math.random()*BOARD_SIZE) }`
inside `getRandomPosition`, where `qx` and `qy` are the two `Math.random()`
results (reals in `[0,1)`). -/
def randomCell (N : Int) (qx qy : ℚ) : Position :=
  { x := ⌊qx * N⌋, y := ⌊qy * N⌋ }

/-- The position comparison `p.x === q.x && p.y === q.y` used in
`getRandomPosition` and in the collision search of `handleKeyDown`. -/
def posEq (p q : Position) : Bool :=
  p.x == q.x && p.y == q.y

/-- The occupancy test
`existingPositions.some(p => p.x === newPosition.x && p.y === newPosition.y)`. -/
def isOccupied (existingPositions : List Position) (newPosition : Position) : Bool :=
  existingPositions.any fun p => posEq p newPosition

/-- The `do { newPosition = ... } while (isOccupied)` loop of
`getRandomPosition` in GameBoard, with the successive sampled cells made
explicit as the stream `draws` (each entry a `randomCell` output).  It returns
the first draw that lands on an unoccupied cell, together with the unconsumed
remainder of the stream; `none` means the loop did not terminate within the
supplied draws (the source caps neither the retries nor falls back to a scan,
so on an all-occupied stream it simply keeps looping). -/
def getRandomPosition (existingPositions : List Position) :
    List Position → Option (Position × List Position)
  | [] => none
  | d :: rest =>
    if isOccupied existingPositions d then getRandomPosition existingPositions rest
    else some (d, rest)

/-- Function `getNewSeedType` in GameBoard; `rand` is the `Math.random()`
result. -/
def getNewSeedType (hardSeedChance coinChance rand : ℚ) : SeedType :=
  if rand < hardSeedChance then SeedType.Hard
  else if rand < hardSeedChance + coinChance then SeedType.Coin
  else SeedType.Good

/-! ## Engine state and operations (GameBoard) -/

/-- The mutable state of the GameBoard component: the `birdPosition` and
`seeds` React states plus the `seedIdCounter` ref. -/
structure EngineState where
  birdPosition : Position
  seeds : List Seed
  seedIdCounter : Nat
deriving DecidableEq, Repr

/-- Signals emitted to the session controller: the `onGameOver`, `onScore`
and `onCoinCollect` callback invocations. -/
inductive Signal where
  | GameOverSignal
  | ScoreSignal
  | CoinSignal
deriving DecidableEq, Repr

/-- Result of one key-press: the updated engine state and the list of
callbacks invoked during it. -/
structure MoveResult where
  state : EngineState
  signals : List Signal
deriving DecidableEq, Repr

/-- The arrow-key switch of `handleKeyDown`; any other key hits the
`default: return prevPos` arm, modelled by `Key.Other`. -/
inductive Key where
  | ArrowUp
  | ArrowDown
  | ArrowLeft
  | ArrowRight
  | Other
deriving DecidableEq, Repr

/-- The candidate position computed by the `switch (e.key)` in
`handleKeyDown`: one axis adjusted by one, clamped into `[0, N-1]` by
`Math.max` / `Math.min`; `none` for the `default` arm (key ignored, no
collision processing happens). -/
def candidatePos (N : Int) (prevPos : Position) : Key → Option Position
  | .ArrowUp    => some { prevPos with y := max 0 (prevPos.y - 1) }
  | .ArrowDown  => some { prevPos with y := min (N - 1) (prevPos.y + 1) }
  | .ArrowLeft  => some { prevPos with x := max 0 (prevPos.x - 1) }
  | .ArrowRight => some { prevPos with x := min (N - 1) (prevPos.x + 1) }
  | .Other      => none

/-- The combination of `seeds.findIndex(seed => seed.position.x === newPos.x
&& seed.position.y === newPos.y)`, the lookup `seeds[collidedSeedIndex]`, and
the removal `seeds.filter((_, index) => index !== collidedSeedIndex)`: the
first seed whose position matches `newPos`, paired with the seed list with
that one occurrence removed; `none` when `findIndex` returns `-1`. -/
def findCollision (newPos : Position) : List Seed → Option (Seed × List Seed)
  | [] => none
  | seed :: rest =>
    if posEq seed.position newPos then some (seed, rest)
    else
      match findCollision newPos rest with
      | none => none
      | some (c, l) => some (c, seed :: l)

/-- Function `handleKeyDown` in GameBoard, as a pure transition.  `draws` is
the placement sample stream and `typeRand` the `Math.random()` result used by
`getNewSeedType` if a replacement seed is spawned.  `none` models the source
hanging inside `getRandomPosition` (draw stream exhausted). -/
def handleKeyDown (N : Int) (hardSeedChance coinChance : ℚ) (st : EngineState)
    (key : Key) (draws : List Position) (typeRand : ℚ) : Option MoveResult :=
  match candidatePos N st.birdPosition key with
  | none => some { state := st, signals := [] }
  | some newPos =>
    match findCollision newPos st.seeds with
    | none => some { state := { st with birdPosition := newPos }, signals := [] }
    | some (collidedSeed, newSeedsList) =>
      if collidedSeed.type = SeedType.Hard then
        some { state := st, signals := [Signal.GameOverSignal] }
      else
        match getRandomPosition (newPos :: newSeedsList.map Seed.position) draws with
        | none => none
        | some (newSeedPosition, _) =>
          some { state :=
                   { birdPosition := newPos,
                     seeds := newSeedsList ++
                       [{ id := st.seedIdCounter,
                          position := newSeedPosition,
                          type := getNewSeedType hardSeedChance coinChance typeRand }],
                     seedIdCounter := st.seedIdCounter + 1 },
                 signals := [if collidedSeed.type = SeedType.Coin then Signal.CoinSignal
                             else Signal.ScoreSignal] }

/-- Iterated key presses: one `(key, draws, typeRand)` triple per event. -/
def runMoves (N : Int) (hardSeedChance coinChance : ℚ) :
    EngineState → List (Key × List Position × ℚ) → Option EngineState
  | st, [] => some st
  | st, (key, draws, r) :: rest =>
    match handleKeyDown N hardSeedChance coinChance st key draws r with
    | none => none
    | some res => runMoves N hardSeedChance coinChance res.state rest

/-! ## Reset (GameBoard `resetGame`) -/

/-- The seed-spawning `for` loop inside `resetGame`: spawns `count` seeds with
ids `nextId, nextId+1, ...`, each placed by `getRandomPosition` against the
accumulated `existingPositions` (to which each placed position is pushed) and
typed by `getNewSeedType` using one entry of `typeRands` per seed.  `none`
models the loop hanging inside `getRandomPosition` (or an exhausted type
stream, which the source cannot exhaust). -/
def spawnSeeds (hardSeedChance coinChance : ℚ) :
    Nat → Nat → List Position → List Position → List ℚ →
    Option (List Seed × List Position × List ℚ)
  | 0, _, _, draws, typeRands => some ([], draws, typeRands)
  | count + 1, nextId, existingPositions, draws, typeRands =>
    match getRandomPosition existingPositions draws with
    | none => none
    | some (position, draws') =>
      match typeRands with
      | [] => none
      | r :: typeRands' =>
        match spawnSeeds hardSeedChance coinChance count (nextId + 1)
            (existingPositions ++ [position]) draws' typeRands' with
        | none => none
        | some (rest, d, t) =>
          some ({ id := nextId, position := position,
                  type := getNewSeedType hardSeedChance coinChance r } :: rest, d, t)

/-- Function `resetGame` in GameBoard: bird at the board's center
`Math.floor(BOARD_SIZE / 2)` on both axes, `initialSeeds` seeds spawned
avoiding the bird and each other, ids `0 .. initialSeeds-1`, and the id
counter reset to `initialSeeds`. -/
def resetGame (N : Int) (setting : DifficultySetting)
    (draws : List Position) (typeRands : List ℚ) : Option EngineState :=
  match spawnSeeds setting.hardSeedChance setting.coinChance setting.initialSeeds 0
      [{ x := N / 2, y := N / 2 }] draws typeRands with
  | none => none
  | some (newSeeds, _, _) =>
    some { birdPosition := { x := N / 2, y := N / 2 },
           seeds := newSeeds,
           seedIdCounter := setting.initialSeeds }

/-! ## Session controller (App) -/

/-- The session-level React state of the App component. -/
structure SessionState where
  gameState : GameState
  score : Nat
  coins : Nat
  totalPoints : Int
  difficulty : Difficulty
deriving DecidableEq, Repr

/-- Function `handleStartGame` in App (the sound side effect is dropped). -/
def handleStartGame (s : SessionState) : SessionState :=
  { s with score := 0, coins := 0, gameState := GameState.Playing }

/-- Function `handleGameOver` in App: transition to GameOver and add the
session's score to the running total. -/
def handleGameOver (s : SessionState) : SessionState :=
  { s with gameState := GameState.GameOver,
           totalPoints := s.totalPoints + s.score }

/-- Function `handleScore` in App. -/
def handleScore (s : SessionState) : SessionState :=
  { s with score := s.score + 1 }

/-- Function `handleCoinCollect` in App: coins also give a point. -/
def handleCoinCollect (s : SessionState) : SessionState :=
  { s with coins := s.coins + 1, score := s.score + 1 }

/-- Function `handleSelectDifficulty` in App. -/
def handleSelectDifficulty (s : SessionState) (newDifficulty : Difficulty) : SessionState :=
  { s with difficulty := newDifficulty, gameState := GameState.Ready }

/-! ## Persisted total (App `localStorage` round trip) -/

/-- Result of the JS `Number(...)` conversion: either NaN or a finite value
(this app only ever stores integers, so the value is carried as `Int`). -/
inductive JSNumber where
  | nan
  | num (value : Int)
deriving DecidableEq, Repr

/-- Value of a nonempty digit string, `none` when empty or containing a
non-digit character. -/
def digitsValue (cs : List Char) : Option Nat :=
  if cs.isEmpty then none
  else
    cs.foldl
      (fun acc c =>
        match acc with
        | none => none
        | some n => if c.isDigit then some (n * 10 + (c.toNat - 48)) else none)
      (some 0)

/-- Modelled JS `Number(string)` semantics, restricted to the optional-minus
decimal integer strings this app reads and writes: the empty string converts
to 0, a decimal string (optionally prefixed by a minus sign) to its value, and
anything else to NaN. -/
def jsNumber (s : String) : JSNumber :=
  match s.data with
  | [] => JSNumber.num 0
  | '-' :: rest =>
    match digitsValue rest with
    | some n => JSNumber.num (-(n : Int))
    | none => JSNumber.nan
  | cs =>
    match digitsValue cs with
    | some n => JSNumber.num (n : Int)
    | none => JSNumber.nan

/-- The `|| 0` applied to `Number(localStorage.getItem('totalPoints'))`:
NaN and 0 are falsy (replaced by 0), every other finite value is kept. -/
def orZero : JSNumber → Int
  | JSNumber.nan => 0
  | JSNumber.num v => if v = 0 then 0 else v

/-- The initializer `Number(localStorage.getItem('totalPoints')) || 0` in App;
`none` models an absent key, for which `localStorage.getItem` returns `null`
and `Number(null)` is 0 (falsy, so the result is 0). -/
def initTotalPoints (stored : Option String) : Int :=
  match stored with
  | none => 0
  | some s => orZero (jsNumber s)

/-- The session state paired with the persisted `totalPoints` localStorage
entry.  The `useEffect` on `[totalPoints]` keeps the entry equal to
`String(totalPoints)`: it runs at mount and after every change, so every
operation below that can change `totalPoints` re-persists it. -/
structure PersistedApp where
  session : SessionState
  storedTotalPoints : String
deriving DecidableEq, Repr

/-- App construction: state initializers plus the mount run of the persisting
`useEffect`. -/
def appInit (stored : Option String) : PersistedApp :=
  { session := { gameState := GameState.Ready, score := 0, coins := 0,
                 totalPoints := initTotalPoints stored,
                 difficulty := Difficulty.normal },
    storedTotalPoints := toString (initTotalPoints stored) }

/-- App-level start: `handleStartGame` does not change `totalPoints`, so the
stored entry is untouched. -/
def appStartGame (a : PersistedApp) : PersistedApp :=
  { a with session := handleStartGame a.session }

/-- App-level score event. -/
def appScore (a : PersistedApp) : PersistedApp :=
  { a with session := handleScore a.session }

/-- App-level coin event. -/
def appCoinCollect (a : PersistedApp) : PersistedApp :=
  { a with session := handleCoinCollect a.session }

/-- App-level game over: `handleGameOver` updates `totalPoints`, after which
the `useEffect` persists `String(totalPoints)`. -/
def appGameOver (a : PersistedApp) : PersistedApp :=
  { session := handleGameOver a.session,
    storedTotalPoints := toString (handleGameOver a.session).totalPoints }

/-- App-level difficulty selection. -/
def appSelectDifficulty (a : PersistedApp) (d : Difficulty) : PersistedApp :=
  { a with session := handleSelectDifficulty a.session d }

/-! ## Composed system (App `renderContent` + GameBoard) -/

/-- The whole application state: session controller plus grid engine. -/
structure SystemState where
  session : SessionState
  engine : EngineState
deriving DecidableEq, Repr

/-- How App's handlers consume one engine callback. -/
def dispatchSignal (s : SessionState) : Signal → SessionState
  | Signal.ScoreSignal => handleScore s
  | Signal.CoinSignal => handleCoinCollect s
  | Signal.GameOverSignal => handleGameOver s

/-- One keydown event at the application level.  `renderContent` in App mounts
GameBoard only in the `GameState.Playing` arm; in every other session state
the board is unmounted and its `keydown` listener removed by the effect
cleanup, so the event has no effect on anything. -/
def systemKeyDown (N : Int) (hardSeedChance coinChance : ℚ) (sys : SystemState)
    (key : Key) (draws : List Position) (typeRand : ℚ) : Option SystemState :=
  match sys.session.gameState with
  | GameState.Playing =>
    match handleKeyDown N hardSeedChance coinChance sys.engine key draws typeRand with
    | none => none
    | some res =>
      some { session := res.signals.foldl dispatchSignal sys.session,
             engine := res.state }
  | _ => some sys

/-- Iterated keydown events at the application level. -/
def runSystemKeys (N : Int) (hardSeedChance coinChance : ℚ) :
    SystemState → List (Key × List Position × ℚ) → Option SystemState
  | sys, [] => some sys
  | sys, (key, draws, r) :: rest =>
    match systemKeyDown N hardSeedChance coinChance sys key draws r with
    | none => none
    | some sys' => runSystemKeys N hardSeedChance coinChance sys' rest

/-! ## Concrete run artifacts used by witnesses -/

/-- Thirty distinct sampled cells on the 20 by 20 board, none equal to the
center (10,10): the bottom row and the first half of the next row. -/
def resetWitnessDraws : List Position :=
  ((List.range 20).map fun i => { x := (i : Int), y := 0 }) ++
  ((List.range 10).map fun i => { x := (i : Int), y := 1 })

/-- Thirty seed-kind samples for the witness reset run. -/
def resetWitnessTypeRands : List ℚ :=
  List.replicate 30 (1/2)

/-- The engine state produced by the witness reset run on easy difficulty. -/
def resetWitnessState : EngineState :=
  (resetGame 20 (difficultySettings Difficulty.easy) resetWitnessDraws resetWitnessTypeRands).getD
    { birdPosition := { x := 0, y := 0 }, seeds := [], seedIdCounter := 0 }

/-- First session of the persistence scenario: start, five score events, game
over, starting from an empty storage. -/
def persistenceRunOne : PersistedApp :=
  appGameOver (appScore (appScore (appScore (appScore (appScore
    (appStartGame (appInit none)))))))

/-- Second session of the persistence scenario: start again, three score
events, game over. -/
def persistenceRunTwo : PersistedApp :=
  appGameOver (appScore (appScore (appScore (appStartGame persistenceRunOne))))

/-! ## Sampling lemmas -/

/-- Every cell the source's sampler can produce is within board bounds; this
justifies assuming `inBounds N d` for every draw `d` handed to
`getRandomPosition`. -/
theorem randomCell_inBounds (N : Int) (qx qy : ℚ) (hN : 0 < N)
    (hx0 : 0 ≤ qx) (hx1 : qx < 1) (hy0 : 0 ≤ qy) (hy1 : qy < 1) :
    inBounds N (randomCell N qx qy) := by
  have hN' : (0 : ℚ) < (N : ℚ) := by exact_mod_cast hN
  have hxlt : qx * (N : ℚ) < (N : ℚ) := by
    have := mul_lt_mul_of_pos_right hx1 hN'
    simpa using this
  have hylt : qy * (N : ℚ) < (N : ℚ) := by
    have := mul_lt_mul_of_pos_right hy1 hN'
    simpa using this
  refine ⟨?_, ?_, ?_, ?_⟩ <;> simp only [randomCell]
  · exact Int.floor_nonneg.2 (mul_nonneg hx0 hN'.le)
  · exact Int.floor_lt.2 hxlt
  · exact Int.floor_nonneg.2 (mul_nonneg hy0 hN'.le)
  · exact Int.floor_lt.2 hylt

theorem posEq_iff (p q : Position) : posEq p q = true ↔ p = q := by
  cases p; cases q
  simp [posEq, Position.mk.injEq, and_comm]

theorem isOccupied_eq_false_iff (ex : List Position) (p : Position) :
    isOccupied ex p = false ↔ ∀ q ∈ ex, q ≠ p := by
  simp [isOccupied, posEq_iff]

theorem getRandomPosition_not_occupied {ex ds : List Position} {p : Position}
    {rest : List Position}
    (h : getRandomPosition ex ds = some (p, rest)) : isOccupied ex p = false := by
  induction ds with
  | nil => simp [getRandomPosition] at h
  | cons d t ih =>
    unfold getRandomPosition at h
    split at h
    · exact ih h
    next hocc =>
      simp only [Option.some.injEq, Prod.mk.injEq] at h
      obtain ⟨hd, -⟩ := h
      subst hd
      simpa using hocc

theorem getRandomPosition_mem {ex ds : List Position} {p : Position}
    {rest : List Position}
    (h : getRandomPosition ex ds = some (p, rest)) :
    p ∈ ds ∧ ∀ q ∈ rest, q ∈ ds := by
  induction ds with
  | nil => simp [getRandomPosition] at h
  | cons d t ih =>
    unfold getRandomPosition at h
    split at h
    · obtain ⟨h1, h2⟩ := ih h
      exact ⟨List.mem_cons_of_mem _ h1, fun q hq => List.mem_cons_of_mem _ (h2 q hq)⟩
    · simp only [Option.some.injEq, Prod.mk.injEq] at h
      obtain ⟨hd, ht⟩ := h
      subst hd
      subst ht
      exact ⟨List.mem_cons_self _ _, fun q hq => List.mem_cons_of_mem _ hq⟩

theorem findCollision_decomp {newPos : Position} {l : List Seed} {c : Seed}
    {rest : List Seed}
    (h : findCollision newPos l = some (c, rest)) :
    ∃ l1 l2, l = l1 ++ c :: l2 ∧ rest = l1 ++ l2 ∧ c.position = newPos := by
  induction l generalizing rest with
  | nil => simp [findCollision] at h
  | cons s t ih =>
    unfold findCollision at h
    split at h
    next hpe =>
      simp only [Option.some.injEq, Prod.mk.injEq] at h
      obtain ⟨hc, hr⟩ := h
      subst hc
      subst hr
      exact ⟨[], t, rfl, rfl, (posEq_iff _ _).1 hpe⟩
    next hpe =>
      split at h
      · exact absurd h (by simp)
      next c' l' hfc =>
        simp only [Option.some.injEq, Prod.mk.injEq] at h
        obtain ⟨hc, hr⟩ := h
        subst hc
        subst hr
        obtain ⟨l1, l2, h1, h2, h3⟩ := ih hfc
        exact ⟨s :: l1, l2, by rw [h1]; rfl, by simp [h2], h3⟩

/-! ## Movement bounds -/

theorem candidatePos_inBounds {N : Int} {p p' : Position} {key : Key}
    (hN : 0 < N) (hp : inBounds N p)
    (h : candidatePos N p key = some p') : inBounds N p' := by
  obtain ⟨hx0, hxN, hy0, hyN⟩ := hp
  cases key <;>
    simp only [candidatePos, Option.some.injEq] at h <;>
    first
    | (subst h
       refine ⟨?_, ?_, ?_, ?_⟩ <;> simp only [] <;> omega)
    | exact absurd h (by simp)

theorem handleKeyDown_inBounds {N : Int} {hc cc : ℚ} {st : EngineState}
    {key : Key} {draws : List Position} {r : ℚ} {res : MoveResult}
    (hN : 0 < N) (hb : inBounds N st.birdPosition)
    (h : handleKeyDown N hc cc st key draws r = some res) :
    inBounds N res.state.birdPosition := by
  unfold handleKeyDown at h
  split at h
  next hcand =>
    simp only [Option.some.injEq] at h
    rw [← h]
    exact hb
  next newPos hcand =>
    have hnb := candidatePos_inBounds hN hb hcand
    split at h
    next hfind =>
      simp only [Option.some.injEq] at h
      rw [← h]
      exact hnb
    next collidedSeed newSeedsList hfind =>
      split at h
      next ht =>
        simp only [Option.some.injEq] at h
        rw [← h]
        exact hb
      next ht =>
        split at h
        next hplace => exact absurd h (by simp)
        next newSeedPosition rest hplace =>
          simp only [Option.some.injEq] at h
          rw [← h]
          exact hnb

/-- C1: for every board size, every in-bounds starting state and every
sequence of key inputs, the bird's position after running the inputs is still
within `[0, N-1]` on both axes; moreover a move toward a boundary the bird
already touches is accepted and clamps that axis, leaving the position
unchanged rather than wrapping or rejecting. -/
theorem bird_position_stays_in_bounds (N : Int) (hc cc : ℚ) (st : EngineState)
    (inputs : List (Key × List Position × ℚ)) (st' : EngineState)
    (hN : 0 < N) (hb : inBounds N st.birdPosition)
    (h : runMoves N hc cc st inputs = some st') :
    inBounds N st'.birdPosition ∧
    (∀ p : Position,
      (p.y = 0 → candidatePos N p Key.ArrowUp = some p) ∧
      (p.y = N - 1 → candidatePos N p Key.ArrowDown = some p) ∧
      (p.x = 0 → candidatePos N p Key.ArrowLeft = some p) ∧
      (p.x = N - 1 → candidatePos N p Key.ArrowRight = some p)) := by
  constructor
  · induction inputs generalizing st with
    | nil =>
      simp only [runMoves, Option.some.injEq] at h
      rw [← h]
      exact hb
    | cons input rest ih =>
      obtain ⟨key, draws, r⟩ := input
      simp only [runMoves] at h
      cases hmv : handleKeyDown N hc cc st key draws r with
      | none => rw [hmv] at h; exact absurd h (by simp)
      | some res =>
        rw [hmv] at h
        exact ih res.state (handleKeyDown_inBounds hN hb hmv) h
  · intro p
    obtain ⟨px, py⟩ := p
    refine ⟨fun h0 => ?_, fun h0 => ?_, fun h0 => ?_, fun h0 => ?_⟩
    · simp only at h0
      simp only [candidatePos, Option.some.injEq, Position.mk.injEq]
      exact ⟨trivial, by omega⟩
    · simp only at h0
      simp only [candidatePos, Option.some.injEq, Position.mk.injEq]
      exact ⟨trivial, by omega⟩
    · simp only at h0
      simp only [candidatePos, Option.some.injEq, Position.mk.injEq]
      exact ⟨by omega, trivial⟩
    · simp only at h0
      simp only [candidatePos, Option.some.injEq, Position.mk.injEq]
      exact ⟨by omega, trivial⟩

/-- Witness for C1 at the spec's example board: board 20, bird at (10,10),
one ArrowUp press. -/
theorem bird_position_stays_in_bounds_witness :
    inBounds 20 (EngineState.mk ⟨10, 9⟩ [] 0).birdPosition ∧
    (∀ p : Position,
      (p.y = 0 → candidatePos 20 p Key.ArrowUp = some p) ∧
      (p.y = 20 - 1 → candidatePos 20 p Key.ArrowDown = some p) ∧
      (p.x = 0 → candidatePos 20 p Key.ArrowLeft = some p) ∧
      (p.x = 20 - 1 → candidatePos 20 p Key.ArrowRight = some p)) :=
  bird_position_stays_in_bounds 20 0 0 ⟨⟨10, 10⟩, [], 0⟩
    [(Key.ArrowUp, [], 0)] ⟨⟨10, 9⟩, [], 0⟩
    (by decide) (by decide) (by rfl)

theorem findCollision_length {newPos : Position} {l : List Seed} {c : Seed}
    {rest : List Seed}
    (h : findCollision newPos l = some (c, rest)) :
    rest.length + 1 = l.length := by
  obtain ⟨l1, l2, h1, h2, -⟩ := findCollision_decomp h
  subst h1
  subst h2
  simp only [List.length_append, List.length_cons]
  omega

theorem findCollision_id_retired {newPos : Position} {l : List Seed} {c : Seed}
    {rest : List Seed}
    (h : findCollision newPos l = some (c, rest))
    (hnodup : (l.map Seed.id).Nodup) :
    ∀ s ∈ rest, s.id ≠ c.id := by
  obtain ⟨l1, l2, h1, h2, -⟩ := findCollision_decomp h
  subst h1
  subst h2
  rw [List.map_append, List.map_cons] at hnodup
  have hmid := List.nodup_middle.mp hnodup
  have hnotmem := (List.nodup_cons.mp hmid).1
  intro s hs hid
  apply hnotmem
  rw [← List.map_append]
  rw [← hid]
  exact List.mem_map_of_mem Seed.id hs

/-! ## Collision resolution -/

/-- C2: when the candidate cell's first matching seed is a Hazard, the move
leaves the engine state (bird position, seed set, id counter) exactly as it
was and emits exactly one game-over signal. -/
theorem hazard_move_freezes_engine (N : Int) (hc cc : ℚ) (st : EngineState)
    (key : Key) (draws : List Position) (r : ℚ) (newPos : Position)
    (collidedSeed : Seed) (newSeedsList : List Seed)
    (hcand : candidatePos N st.birdPosition key = some newPos)
    (hfind : findCollision newPos st.seeds = some (collidedSeed, newSeedsList))
    (htype : collidedSeed.type = SeedType.Hard) :
    handleKeyDown N hc cc st key draws r =
      some { state := st, signals := [Signal.GameOverSignal] } := by
  simp [handleKeyDown, hcand, hfind, htype]

/-- Witness for C2: bird at (5,5), a Hazard seed at (5,4), ArrowUp. -/
theorem hazard_move_freezes_engine_witness :
    handleKeyDown 20 (1/10) (15/100)
        { birdPosition := { x := 5, y := 5 },
          seeds := [{ id := 0, position := { x := 5, y := 4 }, type := SeedType.Hard }],
          seedIdCounter := 1 }
        Key.ArrowUp [] 0 =
      some { state := { birdPosition := { x := 5, y := 5 },
                        seeds := [{ id := 0, position := { x := 5, y := 4 },
                                    type := SeedType.Hard }],
                        seedIdCounter := 1 },
             signals := [Signal.GameOverSignal] } :=
  hazard_move_freezes_engine 20 (1/10) (15/100) _ Key.ArrowUp [] 0
    { x := 5, y := 4 }
    { id := 0, position := { x := 5, y := 4 }, type := SeedType.Hard } []
    (by decide) (by decide) rfl

/-- C3: when the candidate cell's first matching seed is Benign (Good), the
bird moves there, the collided seed is removed and exactly one replacement
appended whose id is the pre-move counter value (counter post-incremented),
exactly one scored signal is emitted, the seed count is unchanged, the
replacement's position differs from the new bird position and from every
remaining seed's position, and (when ids are unique and below the counter, as
the engine maintains) no seed carries the eaten seed's id any more. -/
theorem benign_collision_spec (N : Int) (hc cc : ℚ) (st : EngineState)
    (key : Key) (draws : List Position) (r : ℚ)
    (newPos newSeedPosition : Position) (collidedSeed : Seed)
    (newSeedsList : List Seed) (restDraws : List Position)
    (hcand : candidatePos N st.birdPosition key = some newPos)
    (hfind : findCollision newPos st.seeds = some (collidedSeed, newSeedsList))
    (htype : collidedSeed.type = SeedType.Good)
    (hplace : getRandomPosition (newPos :: newSeedsList.map Seed.position) draws =
      some (newSeedPosition, restDraws)) :
    handleKeyDown N hc cc st key draws r =
      some { state :=
               { birdPosition := newPos,
                 seeds := newSeedsList ++
                   [{ id := st.seedIdCounter, position := newSeedPosition,
                      type := getNewSeedType hc cc r }],
                 seedIdCounter := st.seedIdCounter + 1 },
             signals := [Signal.ScoreSignal] } ∧
    (newSeedsList ++
      [({ id := st.seedIdCounter, position := newSeedPosition,
          type := getNewSeedType hc cc r } : Seed)]).length = st.seeds.length ∧
    newSeedPosition ≠ newPos ∧
    (∀ s ∈ newSeedsList, newSeedPosition ≠ s.position) ∧
    ((st.seeds.map Seed.id).Nodup → (∀ s ∈ st.seeds, s.id < st.seedIdCounter) →
      ∀ s ∈ newSeedsList ++
        [{ id := st.seedIdCounter, position := newSeedPosition,
           type := getNewSeedType hc cc r }], s.id ≠ collidedSeed.id) := by
  have hocc := getRandomPosition_not_occupied hplace
  rw [isOccupied_eq_false_iff] at hocc
  refine ⟨?_, ?_, ?_, ?_, ?_⟩
  · simp [handleKeyDown, hcand, hfind, htype, hplace]
  · simp only [List.length_append, List.length_cons, List.length_nil]
    have := findCollision_length hfind
    omega
  · exact fun he => hocc newPos (List.mem_cons_self _ _) he.symm
  · intro s hs he
    exact hocc s.position (List.mem_cons_of_mem _ (List.mem_map_of_mem Seed.position hs)) he.symm
  · intro hnodup hlt s hs
    rcases List.mem_append.mp hs with hs | hs
    · exact findCollision_id_retired hfind hnodup s hs
    · simp only [List.mem_singleton] at hs
      subst hs
      obtain ⟨l1, l2, h1, -, -⟩ := findCollision_decomp hfind
      have hcm : collidedSeed ∈ st.seeds := by
        rw [h1]
        exact List.mem_append.mpr (Or.inr (List.mem_cons_self _ _))
      have := hlt collidedSeed hcm
      simp only []
      omega

/-- Witness for C3, the spec's example: board 20, bird at (10,10), a Good seed
at (10,9), ArrowUp; the replacement draw lands at (0,0). -/
theorem benign_collision_spec_witness :
    (handleKeyDown 20 (1/10) (15/100)
        { birdPosition := { x := 10, y := 10 },
          seeds := [{ id := 0, position := { x := 10, y := 9 }, type := SeedType.Good }],
          seedIdCounter := 1 }
        Key.ArrowUp [{ x := 0, y := 0 }] (1/2) =
      some { state :=
               { birdPosition := { x := 10, y := 9 },
                 seeds := [] ++
                   [{ id := 1, position := { x := 0, y := 0 },
                      type := getNewSeedType (1/10) (15/100) (1/2) }],
                 seedIdCounter := 1 + 1 },
             signals := [Signal.ScoreSignal] }) ∧
    (([] : List Seed) ++
      [({ id := 1, position := { x := 0, y := 0 },
          type := getNewSeedType (1/10) (15/100) (1/2) } : Seed)]).length =
      [({ id := 0, position := Position.mk 10 9, type := SeedType.Good } : Seed)].length ∧
    Position.mk 0 0 ≠ Position.mk 10 9 ∧
    (∀ s ∈ ([] : List Seed), Position.mk 0 0 ≠ s.position) ∧
    (([({ id := 0, position := Position.mk 10 9, type := SeedType.Good } : Seed)].map Seed.id).Nodup →
      (∀ s ∈ [({ id := 0, position := Position.mk 10 9, type := SeedType.Good } : Seed)], s.id < 1) →
      ∀ s ∈ ([] : List Seed) ++
        [({ id := 1, position := { x := 0, y := 0 },
            type := getNewSeedType (1/10) (15/100) (1/2) } : Seed)],
        s.id ≠ ({ id := 0, position := Position.mk 10 9, type := SeedType.Good } : Seed).id) :=
  benign_collision_spec 20 (1/10) (15/100)
    { birdPosition := { x := 10, y := 10 },
      seeds := [{ id := 0, position := { x := 10, y := 9 }, type := SeedType.Good }],
      seedIdCounter := 1 }
    Key.ArrowUp [{ x := 0, y := 0 }] (1/2)
    { x := 10, y := 9 } { x := 0, y := 0 }
    { id := 0, position := { x := 10, y := 9 }, type := SeedType.Good } [] []
    (by decide) (by decide) rfl (by decide)

/-- C4: when the candidate cell's first matching seed is a Bonus (Coin), the
engine update is exactly the Benign one but the single emitted signal is the
coin-collected one; and the session controller's coin handler increments both
coins and score by one. -/
theorem coin_collision_spec (N : Int) (hc cc : ℚ) (st : EngineState)
    (key : Key) (draws : List Position) (r : ℚ)
    (newPos newSeedPosition : Position) (collidedSeed : Seed)
    (newSeedsList : List Seed) (restDraws : List Position) (sess : SessionState)
    (hcand : candidatePos N st.birdPosition key = some newPos)
    (hfind : findCollision newPos st.seeds = some (collidedSeed, newSeedsList))
    (htype : collidedSeed.type = SeedType.Coin)
    (hplace : getRandomPosition (newPos :: newSeedsList.map Seed.position) draws =
      some (newSeedPosition, restDraws)) :
    handleKeyDown N hc cc st key draws r =
      some { state :=
               { birdPosition := newPos,
                 seeds := newSeedsList ++
                   [{ id := st.seedIdCounter, position := newSeedPosition,
                      type := getNewSeedType hc cc r }],
                 seedIdCounter := st.seedIdCounter + 1 },
             signals := [Signal.CoinSignal] } ∧
    (newSeedsList ++
      [({ id := st.seedIdCounter, position := newSeedPosition,
          type := getNewSeedType hc cc r } : Seed)]).length = st.seeds.length ∧
    newSeedPosition ≠ newPos ∧
    (∀ s ∈ newSeedsList, newSeedPosition ≠ s.position) ∧
    (handleCoinCollect sess).coins = sess.coins + 1 ∧
    (handleCoinCollect sess).score = sess.score + 1 := by
  have hocc := getRandomPosition_not_occupied hplace
  rw [isOccupied_eq_false_iff] at hocc
  refine ⟨?_, ?_, ?_, ?_, rfl, rfl⟩
  · simp [handleKeyDown, hcand, hfind, htype, hplace]
  · simp only [List.length_append, List.length_cons, List.length_nil]
    have := findCollision_length hfind
    omega
  · exact fun he => hocc newPos (List.mem_cons_self _ _) he.symm
  · intro s hs he
    exact hocc s.position (List.mem_cons_of_mem _ (List.mem_map_of_mem Seed.position hs)) he.symm

/-- Witness for C4: bird at (10,10), a Coin seed at (10,9), ArrowUp; the
replacement draw lands at (0,0); controller at score 4, coins 2. -/
theorem coin_collision_spec_witness :
    (handleKeyDown 20 (1/10) (15/100)
        { birdPosition := { x := 10, y := 10 },
          seeds := [{ id := 3, position := { x := 10, y := 9 }, type := SeedType.Coin }],
          seedIdCounter := 7 }
        Key.ArrowUp [{ x := 0, y := 0 }] (1/2) =
      some { state :=
               { birdPosition := { x := 10, y := 9 },
                 seeds := [] ++
                   [{ id := 7, position := { x := 0, y := 0 },
                      type := getNewSeedType (1/10) (15/100) (1/2) }],
                 seedIdCounter := 7 + 1 },
             signals := [Signal.CoinSignal] }) ∧
    (([] : List Seed) ++
      [({ id := 7, position := { x := 0, y := 0 },
          type := getNewSeedType (1/10) (15/100) (1/2) } : Seed)]).length =
      [({ id := 3, position := Position.mk 10 9, type := SeedType.Coin } : Seed)].length ∧
    Position.mk 0 0 ≠ Position.mk 10 9 ∧
    (∀ s ∈ ([] : List Seed), Position.mk 0 0 ≠ s.position) ∧
    (handleCoinCollect { gameState := GameState.Playing, score := 4, coins := 2,
                         totalPoints := 0, difficulty := Difficulty.normal }).coins = 2 + 1 ∧
    (handleCoinCollect { gameState := GameState.Playing, score := 4, coins := 2,
                         totalPoints := 0, difficulty := Difficulty.normal }).score = 4 + 1 :=
  coin_collision_spec 20 (1/10) (15/100)
    { birdPosition := { x := 10, y := 10 },
      seeds := [{ id := 3, position := { x := 10, y := 9 }, type := SeedType.Coin }],
      seedIdCounter := 7 }
    Key.ArrowUp [{ x := 0, y := 0 }] (1/2)
    { x := 10, y := 9 } { x := 0, y := 0 }
    { id := 3, position := { x := 10, y := 9 }, type := SeedType.Coin } [] []
    { gameState := GameState.Playing, score := 4, coins := 2,
      totalPoints := 0, difficulty := Difficulty.normal }
    (by decide) (by decide) rfl (by decide)

/-! ## Reset postconditions -/

theorem spawnSeeds_spec (N : Int) (hc cc : ℚ) :
    ∀ (count nextId : Nat) (existing draws : List Position) (typeRands : List ℚ)
      (seeds : List Seed) (d : List Position) (t : List ℚ),
    spawnSeeds hc cc count nextId existing draws typeRands = some (seeds, d, t) →
    (∀ p ∈ draws, inBounds N p) →
    seeds.length = count ∧
    seeds.map Seed.id = List.range' nextId count ∧
    (∀ s ∈ seeds, inBounds N s.position) ∧
    (∀ s ∈ seeds, ∀ p ∈ existing, s.position ≠ p) ∧
    seeds.Pairwise (fun a b => a.position ≠ b.position) := by
  intro count
  induction count with
  | zero =>
    intro nextId existing draws typeRands seeds d t h hdr
    simp only [spawnSeeds, Option.some.injEq, Prod.mk.injEq] at h
    obtain ⟨hs, -, -⟩ := h
    subst hs
    simp [List.range']
  | succ c ih =>
    intro nextId existing draws typeRands seeds d t h hdr
    unfold spawnSeeds at h
    split at h
    · exact absurd h (by simp)
    next position draws' hgrp =>
      split at h
      · exact absurd h (by simp)
      next r typeRands' =>
        split at h
        · exact absurd h (by simp)
        next rest dd tt hrec =>
          simp only [Option.some.injEq, Prod.mk.injEq] at h
          obtain ⟨hs, -, -⟩ := h
          subst hs
          have hdr' : ∀ p ∈ draws', inBounds N p := fun p hp =>
            hdr p ((getRandomPosition_mem hgrp).2 p hp)
          obtain ⟨hlen, hids, hinb, havoid, hpw⟩ :=
            ih (nextId + 1) (existing ++ [position]) draws' typeRands' rest dd tt hrec hdr'
          have hoccf := getRandomPosition_not_occupied hgrp
          rw [isOccupied_eq_false_iff] at hoccf
          have hposmem : position ∈ draws := (getRandomPosition_mem hgrp).1
          refine ⟨by simp [hlen], ?_, ?_, ?_, ?_⟩
          · simp only [List.map_cons, hids, List.range'_succ]
          · intro s hs
            rcases List.mem_cons.mp hs with hs | hs
            · subst hs
              exact hdr position hposmem
            · exact hinb s hs
          · intro s hs p hp
            rcases List.mem_cons.mp hs with hs | hs
            · subst hs
              exact fun he => hoccf p hp he.symm
            · exact havoid s hs p (List.mem_append.mpr (Or.inl hp))
          · rw [List.pairwise_cons]
            refine ⟨fun b hb => ?_, hpw⟩
            have hbav := havoid b hb position
              (List.mem_append.mpr (Or.inr (List.mem_singleton.mpr rfl)))
            exact fun he => hbav he.symm

/-- C5: for every difficulty profile and board size, a successful reset puts
the bird at the board's center cell and produces exactly
`initialSeeds`-many seeds, all within bounds, with pairwise distinct
positions all distinct from the bird's, carrying sequential ids
`0 .. initialSeeds - 1`, with the id counter reset to `initialSeeds`. -/
theorem reset_game_spec (d : Difficulty) (N : Int) (draws : List Position)
    (typeRands : List ℚ) (st : EngineState)
    (hN : 0 < N)
    (hdraws : ∀ p ∈ draws, inBounds N p)
    (h : resetGame N (difficultySettings d) draws typeRands = some st) :
    st.birdPosition = { x := N / 2, y := N / 2 } ∧
    inBounds N st.birdPosition ∧
    st.seeds.length = (difficultySettings d).initialSeeds ∧
    (∀ s ∈ st.seeds, inBounds N s.position) ∧
    st.seeds.Pairwise (fun a b => a.position ≠ b.position) ∧
    (∀ s ∈ st.seeds, s.position ≠ st.birdPosition) ∧
    st.seeds.map Seed.id = List.range (difficultySettings d).initialSeeds ∧
    st.seedIdCounter = (difficultySettings d).initialSeeds := by
  unfold resetGame at h
  split at h
  · exact absurd h (by simp)
  next newSeeds dd tt hsp =>
    simp only [Option.some.injEq] at h
    subst h
    obtain ⟨hlen, hids, hinb, havoid, hpw⟩ :=
      spawnSeeds_spec N (difficultySettings d).hardSeedChance (difficultySettings d).coinChance
        (difficultySettings d).initialSeeds 0 [{ x := N / 2, y := N / 2 }] draws typeRands
        newSeeds dd tt hsp hdraws
    refine ⟨rfl, ?_, hlen, hinb, hpw, ?_, ?_, rfl⟩
    · show inBounds N { x := N / 2, y := N / 2 }
      refine ⟨?_, ?_, ?_, ?_⟩ <;> simp only [] <;> omega
    · intro s hs
      exact havoid s hs { x := N / 2, y := N / 2 } (List.mem_singleton.mpr rfl)
    · rw [hids, List.range_eq_range']

/-- Witness for C5 on easy difficulty, board 20, with thirty collision-free
draws. -/
theorem reset_game_spec_witness :
    resetWitnessState.birdPosition = { x := 20 / 2, y := 20 / 2 } ∧
    inBounds 20 resetWitnessState.birdPosition ∧
    resetWitnessState.seeds.length = (difficultySettings Difficulty.easy).initialSeeds ∧
    (∀ s ∈ resetWitnessState.seeds, inBounds 20 s.position) ∧
    resetWitnessState.seeds.Pairwise (fun a b => a.position ≠ b.position) ∧
    (∀ s ∈ resetWitnessState.seeds, s.position ≠ resetWitnessState.birdPosition) ∧
    resetWitnessState.seeds.map Seed.id = List.range (difficultySettings Difficulty.easy).initialSeeds ∧
    resetWitnessState.seedIdCounter = (difficultySettings Difficulty.easy).initialSeeds :=
  reset_game_spec Difficulty.easy 20 resetWitnessDraws resetWitnessTypeRands resetWitnessState
    (by decide) (by decide) (by rfl)

/-! ## Placement termination -/

theorem getRandomPosition_replicate_occupied (ex : List Position) (d : Position)
    (hocc : isOccupied ex d = true) :
    ∀ n, getRandomPosition ex (List.replicate n d) = none := by
  intro n
  induction n with
  | zero => rfl
  | succ k ih =>
    rw [List.replicate_succ]
    unfold getRandomPosition
    rw [hocc]
    simpa using ih

/-- C6 counterexample: on a 2 by 2 board with only cell (0,0) occupied, free
cells exist (for instance (1,1)), yet after 1000 rejection draws that all land
on the occupied cell the placement routine is still looping: no retry cap was
reached and no fallback scan produced a free cell, refuting the claim that
the routine caps retries and falls back to an exhaustive scan. -/
theorem placement_no_cap_counterexample :
    inBounds 2 ({ x := 1, y := 1 } : Position) ∧
    isOccupied [{ x := 0, y := 0 }] { x := 1, y := 1 } = false ∧
    getRandomPosition [{ x := 0, y := 0 }] (List.replicate 1000 { x := 0, y := 0 }) = none :=
  ⟨by decide, by decide,
    getRandomPosition_replicate_occupied _ _ (by decide) 1000⟩

/-- C6 amended: the placement routine has no retry cap and no fallback scan;
it keeps drawing until a draw lands on a free cell, returning none (still
looping) exactly when every supplied draw hits an occupied cell, and
otherwise terminating with the first free draw, which is unoccupied and taken
from the draw stream (hence within board bounds whenever the sampler's draws
are). -/
theorem placement_terminates_iff_free_draw (ex ds : List Position) :
    (getRandomPosition ex ds = none ↔ ∀ d ∈ ds, isOccupied ex d = true) ∧
    (∀ p rest, getRandomPosition ex ds = some (p, rest) →
      isOccupied ex p = false ∧ p ∈ ds) := by
  constructor
  · induction ds with
    | nil => simp [getRandomPosition]
    | cons d t ih =>
      cases hocc : isOccupied ex d with
      | true =>
        unfold getRandomPosition
        rw [hocc]
        simp only [if_true]
        rw [ih]
        constructor
        · intro hall q hq
          rcases List.mem_cons.mp hq with hq | hq
          · rw [hq]
            exact hocc
          · exact hall q hq
        · intro hall q hq
          exact hall q (List.mem_cons_of_mem _ hq)
      | false =>
        unfold getRandomPosition
        rw [hocc]
        simp only [Bool.false_eq_true, if_false]
        constructor
        · intro h
          exact absurd h (by simp)
        · intro hall
          exact absurd (hall d (List.mem_cons_self _ _)) (by simp [hocc])
  · intro p rest h
    exact ⟨getRandomPosition_not_occupied h, (getRandomPosition_mem h).1⟩

/-- Witness for the amended C6 at a concrete occupied set and draw stream. -/
theorem placement_terminates_iff_free_draw_witness :
    (getRandomPosition [{ x := 0, y := 0 }]
        [{ x := 0, y := 0 }, { x := 1, y := 1 }] = none ↔
      ∀ d ∈ [({ x := 0, y := 0 } : Position), { x := 1, y := 1 }],
        isOccupied [{ x := 0, y := 0 }] d = true) ∧
    (∀ p rest,
      getRandomPosition [{ x := 0, y := 0 }]
          [{ x := 0, y := 0 }, { x := 1, y := 1 }] = some (p, rest) →
      isOccupied [{ x := 0, y := 0 }] p = false ∧
      p ∈ [({ x := 0, y := 0 } : Position), { x := 1, y := 1 }]) :=
  placement_terminates_iff_free_draw [{ x := 0, y := 0 }]
    [{ x := 0, y := 0 }, { x := 1, y := 1 }]

/-! ## Terminal game over -/

theorem runSystemKeys_gameover_fixed (N : Int) (hc cc : ℚ) (sys : SystemState)
    (hgo : sys.session.gameState = GameState.GameOver) :
    ∀ keys, runSystemKeys N hc cc sys keys = some sys := by
  intro keys
  induction keys with
  | nil => rfl
  | cons k rest ih =>
    obtain ⟨key, draws, r⟩ := k
    have hstep : systemKeyDown N hc cc sys key draws r = some sys := by
      unfold systemKeyDown
      rw [hgo]
    simp only [runSystemKeys, hstep]
    exact ih

/-- C7: at the application level, a keydown processed while Playing whose
engine move emits the game-over signal drives the session to GameOver with
the engine state frozen as the move left it, and from that point every
further sequence of keydown events leaves the whole system state unchanged
(GameBoard is unmounted outside Playing, so its key listener is removed)
until a new game is started. -/
theorem game_over_is_terminal (N : Int) (hc cc : ℚ) (sys : SystemState)
    (key : Key) (draws : List Position) (r : ℚ) (res : MoveResult)
    (keys : List (Key × List Position × ℚ))
    (hplay : sys.session.gameState = GameState.Playing)
    (hmove : handleKeyDown N hc cc sys.engine key draws r = some res)
    (hsig : res.signals = [Signal.GameOverSignal]) :
    systemKeyDown N hc cc sys key draws r =
      some { session := handleGameOver sys.session, engine := res.state } ∧
    (handleGameOver sys.session).gameState = GameState.GameOver ∧
    runSystemKeys N hc cc
        { session := handleGameOver sys.session, engine := res.state } keys =
      some { session := handleGameOver sys.session, engine := res.state } := by
  refine ⟨?_, rfl, ?_⟩
  · unfold systemKeyDown
    rw [hplay, hmove]
    simp only []
    rw [hsig]
    rfl
  · exact runSystemKeys_gameover_fixed N hc cc _ rfl keys

/-- Witness for C7: Playing session, hazard seed one cell above the bird,
ArrowUp, then two more key presses that change nothing. -/
theorem game_over_is_terminal_witness :
    systemKeyDown 20 (1/10) (15/100)
        { session := { gameState := GameState.Playing, score := 2, coins := 1,
                       totalPoints := 0, difficulty := Difficulty.normal },
          engine := { birdPosition := { x := 5, y := 5 },
                      seeds := [{ id := 0, position := { x := 5, y := 4 },
                                  type := SeedType.Hard }],
                      seedIdCounter := 1 } }
        Key.ArrowUp [] 0 =
      some { session := handleGameOver
               { gameState := GameState.Playing, score := 2, coins := 1,
                 totalPoints := 0, difficulty := Difficulty.normal },
             engine := ({ state := { birdPosition := { x := 5, y := 5 },
                                     seeds := [{ id := 0, position := { x := 5, y := 4 },
                                                 type := SeedType.Hard }],
                                     seedIdCounter := 1 },
                          signals := [Signal.GameOverSignal] } : MoveResult).state } ∧
    (handleGameOver { gameState := GameState.Playing, score := 2, coins := 1,
                      totalPoints := 0, difficulty := Difficulty.normal }).gameState =
      GameState.GameOver ∧
    runSystemKeys 20 (1/10) (15/100)
        { session := handleGameOver
            { gameState := GameState.Playing, score := 2, coins := 1,
              totalPoints := 0, difficulty := Difficulty.normal },
          engine := ({ state := { birdPosition := { x := 5, y := 5 },
                                  seeds := [{ id := 0, position := { x := 5, y := 4 },
                                              type := SeedType.Hard }],
                                  seedIdCounter := 1 },
                       signals := [Signal.GameOverSignal] } : MoveResult).state }
        [(Key.ArrowDown, [], 0), (Key.ArrowLeft, [], 0)] =
      some { session := handleGameOver
               { gameState := GameState.Playing, score := 2, coins := 1,
                 totalPoints := 0, difficulty := Difficulty.normal },
             engine := ({ state := { birdPosition := { x := 5, y := 5 },
                                     seeds := [{ id := 0, position := { x := 5, y := 4 },
                                                 type := SeedType.Hard }],
                                     seedIdCounter := 1 },
                          signals := [Signal.GameOverSignal] } : MoveResult).state } :=
  game_over_is_terminal 20 (1/10) (15/100)
    { session := { gameState := GameState.Playing, score := 2, coins := 1,
                   totalPoints := 0, difficulty := Difficulty.normal },
      engine := { birdPosition := { x := 5, y := 5 },
                  seeds := [{ id := 0, position := { x := 5, y := 4 },
                              type := SeedType.Hard }],
                  seedIdCounter := 1 } }
    Key.ArrowUp [] 0
    { state := { birdPosition := { x := 5, y := 5 },
                 seeds := [{ id := 0, position := { x := 5, y := 4 },
                             type := SeedType.Hard }],
                 seedIdCounter := 1 },
      signals := [Signal.GameOverSignal] }
    [(Key.ArrowDown, [], 0), (Key.ArrowLeft, [], 0)]
    rfl (by decide) rfl

/-! ## Persistence of the total -/

/-- C8: game over transitions the session to GameOver and adds the session's
score to totalPoints, and the persisting effect rewrites storage so the
stored string equals the in-memory total; in the concrete two-session run
with scores 5 then 3 from a fresh start, the total after the first game over
is 5, after the second it is 8, and the stored string matches after each. -/
theorem game_over_accumulates_total (a : PersistedApp) :
    (appGameOver a).session.gameState = GameState.GameOver ∧
    (appGameOver a).session.totalPoints = a.session.totalPoints + a.session.score ∧
    (appGameOver a).storedTotalPoints = toString (appGameOver a).session.totalPoints ∧
    persistenceRunOne.session.totalPoints = 5 ∧
    persistenceRunOne.storedTotalPoints = toString persistenceRunOne.session.totalPoints ∧
    persistenceRunTwo.session.totalPoints = 5 + 3 ∧
    persistenceRunTwo.storedTotalPoints = toString persistenceRunTwo.session.totalPoints ∧
    persistenceRunTwo.storedTotalPoints = "8" :=
  ⟨rfl, rfl, rfl, by decide, by decide, by decide, by decide, by decide⟩

/-! ## Difficulty selection frame -/

/-- C9: selecting a difficulty sets it and returns the session to Ready
without starting a game, leaving totalPoints, score and coins untouched. -/
theorem select_difficulty_frame (s : SessionState) (d : Difficulty) :
    handleSelectDifficulty s d =
      { s with difficulty := d, gameState := GameState.Ready } ∧
    (handleSelectDifficulty s d).totalPoints = s.totalPoints ∧
    (handleSelectDifficulty s d).score = s.score ∧
    (handleSelectDifficulty s d).coins = s.coins ∧
    (handleSelectDifficulty s d).gameState = GameState.Ready ∧
    (handleSelectDifficulty s d).difficulty = d :=
  ⟨rfl, rfl, rfl, rfl, rfl, rfl⟩

/-! ## Initialization of the persisted total -/

/-- C10: at initialization the persisted string is numerically parsed and the
falsy-default replaces exactly NaN and 0; every other finite parsed value is
kept verbatim, so the stored string "-5" yields the negative initial total
-5: non-negativity of totalPoints is not enforced at load, only the
absent/unparseable/zero cases default to 0. -/
theorem init_total_points_spec (v : Int) (hv : v ≠ 0) :
    orZero (JSNumber.num v) = v ∧
    orZero JSNumber.nan = 0 ∧
    orZero (JSNumber.num 0) = 0 ∧
    initTotalPoints none = 0 ∧
    initTotalPoints (some "") = 0 ∧
    initTotalPoints (some "abc") = 0 ∧
    initTotalPoints (some "0") = 0 ∧
    initTotalPoints (some "-5") = -5 ∧
    initTotalPoints (some "-5") < 0 := by
  refine ⟨by simp [orZero, hv], rfl, rfl, rfl, by decide, by decide, by decide,
    by decide, by decide⟩

/-- Witness for C10 at the negative stored value -5. -/
theorem init_total_points_spec_witness :
    orZero (JSNumber.num (-5)) = -5 ∧
    orZero JSNumber.nan = 0 ∧
    orZero (JSNumber.num 0) = 0 ∧
    initTotalPoints none = 0 ∧
    initTotalPoints (some "") = 0 ∧
    initTotalPoints (some "abc") = 0 ∧
    initTotalPoints (some "0") = 0 ∧
    initTotalPoints (some "-5") = -5 ∧
    initTotalPoints (some "-5") < 0 :=
  init_total_points_spec (-5) (by decide)

end Birdy
